import Mathlib

/-!
Verification of the event-driven agent's core modules against their design
specification.  The Python sources are shallowly embedded as executable Lean
definitions:

* `src/agent/core/runtime.py`      — `ContainerRuntime` / `HostRuntime`
* `src/agent/tools/tool_registry.py` — `ToolRegistry`
* `src/agent/tools/command_executor.py` — `ContainerCommandExecutor`
* `src/agent/llm/agent.py`         — `Orchestrator` variants and `Agent`

Python strings are embedded as Lean `String` (a wrapper around `List Char`);
the Python string primitives used by the code (`str.count`, `str.replace`
with a count of 1, `str.strip`, `str.endswith`, `str.upper`, list slicing,
`readlines`, `splitlines`) are defined below with CPython semantics.
Result dicts become association lists `RMap`; the in-scope filesystem becomes
an association list from path to content.
-/

/-- Python whitespace characters recognised by `str.strip()` (ASCII range). -/
def isPySpace (c : Char) : Bool :=
  c = ' ' || c = '\t' || c = '\n' || c = '\x0b' || c = '\x0c' || c = '\r'

/-- Left-to-right scan for `pyCountL`: after a match of a non-empty `pat`,
the remaining `pat.length - 1` matched characters are skipped (structural
recursion equivalent of advancing by `pat.length`). -/
def pyCountGo (pat : List Char) : Nat → List Char → Nat
  | _, [] => 0
  | Nat.succ skip, _ :: t => pyCountGo pat skip t
  | 0, c :: t =>
    if pat.isPrefixOf (c :: t) then 1 + pyCountGo pat (pat.length - 1) t
    else pyCountGo pat 0 t

/-- CPython `hay.count(pat)`: number of non-overlapping occurrences of `pat`
in `hay`, scanning left to right; an empty pattern counts `len(hay) + 1`. -/
def pyCountL (pat : List Char) (hay : List Char) : Nat :=
  if pat = [] then hay.length + 1 else pyCountGo pat 0 hay

/-- CPython `hay.replace(pat, repl, 1)`: replace the leftmost occurrence of
`pat` by `repl`; with an empty pattern, `repl` is prepended. -/
def pyReplaceOnceL (pat repl : List Char) (hay : List Char) : List Char :=
  if pat = [] then repl ++ hay
  else
    match hay with
    | [] => []
    | c :: t =>
      if pat.isPrefixOf (c :: t) then repl ++ (c :: t).drop pat.length
      else c :: pyReplaceOnceL pat repl t

/-- CPython `s.strip()` on the character list. -/
def pyStripL (s : List Char) : List Char :=
  ((s.dropWhile isPySpace).reverse.dropWhile isPySpace).reverse

/-- CPython `hay.count(pat)` on `String`. -/
def pyCount (hay pat : String) : Nat := pyCountL pat.data hay.data

/-- CPython `pat in hay` (substring containment). -/
def pyContains (hay pat : String) : Bool := pyCount hay pat != 0

/-- CPython `hay.replace(pat, repl, 1)` on `String`. -/
def pyReplaceOnce (hay pat repl : String) : String :=
  String.mk (pyReplaceOnceL pat.data repl.data hay.data)

/-- CPython `s.strip()` on `String`. -/
def pyStrip (s : String) : String := String.mk (pyStripL s.data)

/-- CPython `s.endswith(suffix)`. -/
def pyEndsWith (s suffix : String) : Bool := suffix.data.isSuffixOf s.data

/-- CPython `s.upper()` (ASCII letters, which is all the code upper-cases). -/
def pyUpper (s : String) : String := String.map Char.toUpper s

/-- Effective index of a CPython slice bound `i` for a list of length `len`:
negative indices count from the end, and both ends clamp into `[0, len]`. -/
def pyClampIdx (len : Nat) (i : Int) : Nat :=
  if i < 0 then ((len : Int) + i).toNat else min i.toNat len

/-- CPython list slice `l[i:j]`. -/
def pySlice {α : Type} (l : List α) (i j : Int) : List α :=
  (l.take (pyClampIdx l.length j)).drop (pyClampIdx l.length i)

/-- CPython `f.readlines()` of a text whose line separator is `'\n'`:
the lines keep their terminating newline, and a final fragment without a
newline is kept as a last line. -/
def pyReadLines (acc : List Char) : List Char → List (List Char)
  | [] => if acc = [] then [] else [acc.reverse]
  | c :: t =>
    if c = '\n' then (acc.reverse ++ ['\n']) :: pyReadLines [] t
    else pyReadLines (c :: acc) t

/-- CPython `s.splitlines()` for `'\n'`-separated text: the separators are
dropped and a trailing newline produces no empty trailing entry. -/
def pySplitLines (acc : List Char) : List Char → List (List Char)
  | [] => if acc = [] then [] else [acc.reverse]
  | c :: t =>
    if c = '\n' then acc.reverse :: pySplitLines [] t
    else pySplitLines (c :: acc) t

/-- A value stored in a Python result dict: the code only stores strings and
integers in the fields the design talks about. -/
inductive RVal where
  | str : String → RVal
  | int : Int → RVal
deriving DecidableEq, Repr

/-- A Python result dict, in insertion order. -/
abbrev RMap := List (String × RVal)

/-- Lookup in an association list (Python `d[k]` / `d.get(k)`). -/
def alook {α : Type} (m : List (String × α)) (k : String) : Option α :=
  match m with
  | [] => none
  | (k2, v) :: t => if k = k2 then some v else alook t k

/-- CPython dict assignment `d[k] = v`: replaces the value in place when the
key is present (keeping its position), appends otherwise. -/
def aset {α : Type} (m : List (String × α)) (k : String) (v : α) :
    List (String × α) :=
  match m with
  | [] => [(k, v)]
  | (k2, w) :: t => if k = k2 then (k, v) :: t else (k2, w) :: aset t k v

/-- The filesystem visible to a `Runtime`, as path → content. -/
abbrev FS := List (String × String)

/-! ## Runtime (`src/agent/core/runtime.py`) -/

/-- `ContainerRuntime.execute`'s output truncation: outputs longer than 5000
characters are cut to 5000 and a marker is appended (runtime.py lines
126-129). -/
def truncOut (s : String) (marker : String) : String :=
  if s.length > 5000 then s.take 5000 ++ marker else s

/-- `ContainerRuntime.execute` (runtime.py lines 121-147), as a function of
the completed subprocess's decoded stdout, decoded stderr and return code
(the `except` path, which needs the subprocess itself to fail to spawn, is
outside this model). -/
def containerExecute (stdout stderr : String) (returncode : Int) : RMap :=
  let stdout := truncOut stdout "\n\n(truncated: output is too long)"
  let stderr := truncOut stderr "\n\n(truncated: error is too long)"
  if returncode != 0 then
    [("status", .str "error"), ("returncode", .int returncode),
     ("stdout", .str stdout), ("stderr", .str stderr)]
  else
    [("status", .str "success"), ("stdout", .str stdout),
     ("stderr", .str stderr)]

/-- `HostRuntime.execute` (runtime.py lines 265-286): the completed
subprocess's outputs are returned untruncated and the status is
unconditionally `"success"`. -/
def hostExecute (stdout stderr : String) (returncode : Int) : RMap :=
  [("status", .str "success"), ("stdout", .str stdout),
   ("stderr", .str stderr), ("returncode", .int returncode)]

/-- `ContainerCommandExecutor.execute` (command_executor.py lines 107-129):
no truncation; non-zero exit yields `status = "error"` with the outputs. -/
def containerCmdExecute (stdout stderr : String) (returncode : Int) : RMap :=
  if returncode != 0 then
    [("status", .str "error"), ("returncode", .int returncode),
     ("stdout", .str stdout), ("stderr", .str stderr)]
  else
    [("status", .str "success"), ("stdout", .str stdout),
     ("stderr", .str stderr)]

/-- `HostRuntime.write_file` (runtime.py lines 330-343): overwrites the file
(parent directories are created by the code; the path map models that). -/
def hostWriteFile (fs : FS) (filename content : String) : RMap × FS :=
  ([("status", .str "success"),
    ("message", .str ("Content saved to " ++ filename))],
   aset fs filename content)

/-- `HostRuntime.read_file` (runtime.py lines 298-328) on an existing file:
`lines = f.readlines()`, `start = max(1, start_line)`,
`content = "".join(lines[start-1 : start+limit-1])`. -/
def hostReadFile (fs : FS) (filename : String) (startLine limit : Int) :
    RMap :=
  match alook fs filename with
  | none => [("status", .str "error"), ("message", .str "File not found")]
  | some fileContent =>
    let lines := pyReadLines [] fileContent.data
    let totalLines := lines.length
    let start := max 1 startLine
    let endIdx := start + limit - 1
    let content := String.mk (pySlice lines (start - 1) endIdx).flatten
    [("status", .str "success"), ("content", .str content),
     ("total_lines", .int totalLines), ("start_line", .int start),
     ("returned_lines", .int (pySplitLines [] content.data).length)]

/-- An edit operation `{search, replace}` handed to `edit_file`. -/
structure Edit where
  search : String
  replace : String
deriving DecidableEq, Repr

/-- The in-memory edit loop shared by `HostRuntime.edit_file` (runtime.py
lines 360-379) and `ContainerRuntime.edit_file` (lines 236-255), with
`HostRuntime`'s literal messages: each edit's `search` must occur in the
successively edited content, and at most once; otherwise the whole loop
fails without any write. -/
def editLoop (filename : String) (content : String) :
    List Edit → Except String String
  | [] => .ok content
  | e :: rest =>
    if pyContains content e.search then
      if pyCount content e.search > 1 then
        .error ("Multiple occurrences of search block found in " ++ filename
          ++ ". Please include more surrounding context to make it unique.")
      else
        editLoop filename (pyReplaceOnce content e.search e.replace) rest
    else
      .error ("Could not find exact match in " ++ filename
        ++ " for search block\n\n" ++ e.search
        ++ "\n\nEnsure your SEARCH block is a literal copy of the file content. The file is left unmodified")

/-- `HostRuntime.edit_file` (runtime.py lines 345-385): read the file, run
the edit loop in memory, and only on success write the new content back in
a single `write_file` call at the end. -/
def hostEditFile (fs : FS) (filename : String) (edits : List Edit) :
    RMap × FS :=
  match alook fs filename with
  | none => ([("status", .str "error"), ("message", .str "File not found")], fs)
  | some content =>
    match editLoop filename content edits with
    | .error m => ([("status", .str "error"), ("message", .str m)], fs)
    | .ok newContent => hostWriteFile fs filename newContent

/-- `ContainerRuntime.write_file` (runtime.py lines 201-221): base64 over
stdin into the container; on success the file holds the content. -/
def containerWriteFile (fs : FS) (filename content : String) : RMap × FS :=
  ([("status", .str "success"),
    ("message", .str ("Content saved to " ++ filename))],
   aset fs filename content)

/-- `ContainerRuntime.edit_file` (runtime.py lines 223-257): same in-memory
loop; the initial read is `read_file_internal`, which raises when the file
cannot be read (modelled as `none` — the exception propagates to the tool
wrapper). -/
def containerEditFile (fs : FS) (filename : String) (edits : List Edit) :
    Option (RMap × FS) :=
  match alook fs filename with
  | none => none
  | some content =>
    match editLoop filename content edits with
    | .error m =>
      some ([("status", .str "error"), ("message", .str m)], fs)
    | .ok newContent => some (containerWriteFile fs filename newContent)

/-- The success condition of the edit loop, stated as the claim states it:
every edit's `search` occurs exactly once in the successively edited
content (occurrence counting is CPython `str.count`). -/
def editsAllMatchOnce (content : String) : List Edit → Bool
  | [] => true
  | e :: rest =>
    pyCount content e.search = 1 &&
      editsAllMatchOnce (pyReplaceOnce content e.search e.replace) rest

/-- The final content after applying every edit in order (leftmost
occurrence replaced each time). -/
def applyEditsAll (content : String) : List Edit → String
  | [] => content
  | e :: rest => applyEditsAll (pyReplaceOnce content e.search e.replace) rest

/-! ## ToolRegistry (`src/agent/tools/tool_registry.py`) -/

/-- Keyword arguments of a tool invocation. -/
abbrev Args := List (String × RVal)

/-- The observable behaviour of one awaited call of an (unwrapped) tool
coroutine: how many seconds it runs, and whether it returns a result dict
or raises (carrying `str(e)`). -/
structure ToolOutcome where
  dur : Nat
  out : Except String RMap

/-- An unwrapped Python tool coroutine function, as invoked on kwargs. -/
abbrev Handler := Args → ToolOutcome

/-- `ToolRegistry._wrap_tool` (tool_registry.py lines 29-47): the stored
handler runs the tool under `asyncio.wait_for` with the registry's timeout;
a run longer than the timeout becomes the timeout error dict, an exception
becomes `{status: error, message: str(e)}`, and otherwise the tool's own
result is returned unchanged.  The wrapper is a total function: it never
raises. -/
def wrapTool (timeout : Nat) (toolName : String) (fn : Handler) :
    Args → RMap := fun args =>
  let o := fn args
  if o.dur > timeout then
    [("status", .str "error"),
     ("message", .str ("Tool " ++ toolName ++ " timed out after "
        ++ toString timeout ++ "s"))]
  else
    match o.out with
    | .error e => [("status", .str "error"), ("message", .str e)]
    | .ok res => res

/-- A schema entry `{"name": …, "description": …, "parameters": …}` as the
registry stores it.  `description` is optional because
`Orchestrator.register_instance_tool` stores the raw `func.__doc__`, which
can be `None`.  The JSON-Schema `parameters` dict is carried as an atom: no
modelled operation inspects it. -/
structure ToolSchema where
  name : String
  description : Option String
  parameters : RVal
deriving DecidableEq, Repr

/-- A Python function object as the registry sees it: `__name__`,
`__doc__`, and its call behaviour. -/
structure PyFunc where
  name : String
  doc : Option String
  fn : Handler

/-- `ToolRegistry` state: `_tool_timeout`, `_schemas`, `_handlers`
(tool_registry.py lines 24-27). -/
structure ToolRegistry where
  toolTimeout : Nat
  schemas : List (String × ToolSchema)
  handlers : List (String × (Args → RMap))

/-- `ToolRegistry.register` (tool_registry.py lines 49-66):
`tool_name = name or func.__name__`,
`tool_description = description or (func.__doc__ or "").strip()`; the
schema entry and the wrapped handler are stored under `tool_name`. -/
def ToolRegistry.register (r : ToolRegistry) (func : PyFunc) (schema : RVal)
    (name description : Option String) : ToolRegistry :=
  let toolName :=
    match name with
    | some n => if n = "" then func.name else n
    | none => func.name
  let toolDescription :=
    match description with
    | some d => if d = "" then pyStrip (func.doc.getD "") else d
    | none => pyStrip (func.doc.getD "")
  { r with
    schemas := aset r.schemas toolName
      ⟨toolName, some toolDescription, schema⟩,
    handlers := aset r.handlers toolName
      (wrapTool r.toolTimeout toolName func.fn) }

/-- `ToolRegistry.get_schema` (tool_registry.py lines 68-69). -/
def ToolRegistry.getSchema (r : ToolRegistry) (toolName : String) :
    Option ToolSchema := alook r.schemas toolName

/-- `ToolRegistry.get_handler` (tool_registry.py lines 71-72). -/
def ToolRegistry.getHandler (r : ToolRegistry) (toolName : String) :
    Option (Args → RMap) := alook r.handlers toolName

/-- `ToolRegistry.tool_schemas` (tool_registry.py lines 74-76): the stored
schema dicts in insertion order (each wrapped in the constant
`{"type": "function", "function": …}` envelope, which is dropped here). -/
def ToolRegistry.toolSchemas (r : ToolRegistry) : List ToolSchema :=
  r.schemas.map Prod.snd

/-- `ToolRegistry.clone` (tool_registry.py lines 78-83): a new registry with
`dict(...)` copies of both maps. -/
def ToolRegistry.clone (r : ToolRegistry) : ToolRegistry :=
  ⟨r.toolTimeout, r.schemas, r.handlers⟩

/-! ## Orchestrator and Agent (`src/agent/llm/agent.py`) -/

/-- `Orchestrator.register_instance_tool` (agent.py lines 51-65).
`Orchestrator.__init__` (lines 37-49) performs no `clone()`: it stores
`self.schemas = tool_registry.schemas` and
`self.handlers = tool_registry.handlers`, so the orchestrator's dicts are
the registry's own dict objects (on the real `ToolRegistry`, whose
attributes are spelled `_schemas` / `_handlers` / `_wrap_tool`, the lookup
of `schemas` does not even resolve and construction raises
`AttributeError`; the model reads the attribute accesses at the only dicts
the object has).  An instance registration therefore mutates the registry
that was passed in, and this function returns that registry as mutated:
`tool_name = func.__name__`, `tool_description = func.__doc__` (raw, not
stripped). -/
def registerInstanceTool (r : ToolRegistry) (func : PyFunc) (schema : RVal) :
    ToolRegistry :=
  { r with
    schemas := aset r.schemas func.name ⟨func.name, func.doc, schema⟩,
    handlers := aset r.handlers func.name
      (wrapTool r.toolTimeout func.name func.fn) }

/-- `HumanInputOrchestrator._register_tools` (agent.py lines 195-262)
registers the two instance-scoped tools `add_reaction` and `send_image` on
the orchestrator's (shared) maps; their runtime behaviour closes over the
messaging client and is passed in as `addReactionFn` / `sendImageFn`, and
their JSON-Schema parameter dicts are carried as atoms. -/
def humanInputRegisterTools (addReactionFn sendImageFn : Handler)
    (r : ToolRegistry) : ToolRegistry :=
  registerInstanceTool
    (registerInstanceTool r
      ⟨"add_reaction", some "React to the current message with an emoji.",
        addReactionFn⟩
      (.str "add_reaction parameters"))
    ⟨"send_image",
      some "Send an image file to the user. Image file size must be under 10 MiB.",
      sendImageFn⟩
    (.str "send_image parameters")

/-- One entry of an assistant message's `tool_calls`. -/
structure AsstToolCall where
  id : String
  name : String
  arguments : String
deriving DecidableEq, Repr

/-- The assistant message handed to `Orchestrator.process`: `content` may be
`None`, and an absent/`None`/empty `tool_calls` is the falsy case of
`if message.tool_calls:`, modelled as `[]`. -/
structure AsstMessage where
  content : Option String
  toolCalls : List AsstToolCall
deriving DecidableEq, Repr

/-- A follow-up message returned by `Orchestrator.process` into the
transcript. -/
structure ChatMsg where
  role : String
  content : String
  toolCallId : Option String
deriving DecidableEq, Repr

/-- What one call of `Orchestrator.process` did: the returned follow-up
messages, whether `_before_tool_use` ran, and the (stripped) content passed
to `_on_final_response` when it ran. -/
structure ProcessOutput where
  reply : List ChatMsg
  calledBeforeToolUse : Bool
  finalResponse : Option String
deriving DecidableEq, Repr

/-- `Orchestrator.process` (agent.py lines 77-106), parameterised by the
result dict each tool call produces (`_handle_tool_call`, lines 108-162,
covering dispatch, argument errors and unknown tools) and by JSON
serialisation (`json.dumps`):
with tool calls, `_before_tool_use` runs and one
`{role: "tool", tool_call_id, content: json.dumps(result)}` message is
returned per call, in order; with no tool calls and
`finish_reason != "stop"`, the single `continue` user message is returned;
otherwise `_on_final_response((message.content or "").strip())` runs and
the empty list is returned. -/
def process (handle : AsstToolCall → RMap) (dumps : RMap → String)
    (message : AsstMessage) (finishReason : String) : ProcessOutput :=
  if message.toolCalls ≠ [] then
    { reply := message.toolCalls.map fun tc =>
        { role := "tool", content := dumps (handle tc),
          toolCallId := some tc.id },
      calledBeforeToolUse := true,
      finalResponse := none }
  else if finishReason ≠ "stop" then
    { reply := [{ role := "user", content := "continue", toolCallId := none }],
      calledBeforeToolUse := false,
      finalResponse := none }
  else
    { reply := [],
      calledBeforeToolUse := false,
      finalResponse := some (pyStrip ((message.content).getD "")) }

/-- The assistant message as appended to the transcript
(`messages.append(message.model_dump())`, agent.py line 346; the serialised
`tool_calls` are not needed by any claim). -/
def asstToChatMsg (m : AsstMessage) : ChatMsg :=
  { role := "assistant", content := m.content.getD "", toolCallId := none }

/-- The `while True` loop of `Agent._chat` (agent.py lines 323-351), driven
by a finite script of LLM responses `(message, finish_reason)`: each
iteration appends the assistant message, runs `process`, and terminates
(returning the transcript) exactly when the reply is empty
(`if not reply: return response`); a non-empty reply is appended and the
loop continues.  An exhausted script models a still-running loop
(`none`). -/
def chatLoop (processFn : AsstMessage → String → ProcessOutput)
    (messages : List ChatMsg) :
    List (AsstMessage × String) → Option (List ChatMsg)
  | [] => none
  | (m, fr) :: rest =>
    let messages2 := messages ++ [asstToChatMsg m]
    let out := processFn m fr
    if out.reply = [] then some messages2
    else chatLoop processFn (messages2 ++ out.reply) rest

/-- `HeartbeatOrchestrator._on_final_response` (agent.py lines 172-175):
`messaging.notify(content)` runs iff the content is truthy and does not end
with the literal `NO_REPORT`; the returned value is the notify payload
(`none` = no call). -/
def heartbeatOnFinalResponse (content : String) : Option String :=
  if content != "" && !pyEndsWith content "NO_REPORT" then some content
  else none

/-- The notify effect of one `HeartbeatOrchestrator.process` call: the
final-response hook runs only in the terminal case, on the stripped
content. -/
def heartbeatNotifyOf (handle : AsstToolCall → RMap) (dumps : RMap → String)
    (message : AsstMessage) (finishReason : String) : Option String :=
  match (process handle dumps message finishReason).finalResponse with
  | none => none
  | some c => heartbeatOnFinalResponse c

/-! ## Agent.compress (`src/agent/llm/agent.py` lines 363-411) -/

/-- A raw transcript message as `compress` consumes it: `msg.get("role",
"unknown")` and `msg.get("content", "")` make both fields optional. -/
structure CMsg where
  role : Option String
  content : Option String
deriving DecidableEq, Repr

/-- One `do_completion` request issued by `compress` (only the fields the
claims constrain). -/
structure CompletionRequest where
  system : String
  user : String
  temperature : ℚ
deriving DecidableEq, Repr

/-- The fixed summariser system prompt of `compress`. -/
def compressionPrompt : String :=
  "You are a conversation summarizer. Produce a concise but complete summary of the conversation below. Preserve: key facts, decisions made, tool results, file paths, ongoing tasks, and any important context the agent will need later. Write in third-person past tense. Be dense — omit pleasantries."

/-- The transcript block of one message, when its content is truthy:
`"[" + role.upper() + "]\n" + content`. -/
def transcriptBlock (m : CMsg) : Option String :=
  let role := m.role.getD "unknown"
  let content := m.content.getD ""
  if content ≠ "" then some ("[" ++ pyUpper role ++ "]\n" ++ content)
  else none

/-- `Agent.compress`: empty input returns `""` with no LLM call; otherwise
one completion is issued at temperature 0.3 with the summariser system
prompt and the blank-line-joined transcript, and the response content
(`or ""`) is returned stripped.  The LLM is a parameter from request to
optional response content; the second component lists the issued
requests. -/
def agentCompress (llm : CompletionRequest → Option String)
    (messages : List CMsg) : String × List CompletionRequest :=
  if messages = [] then ("", [])
  else
    let transcript :=
      String.intercalate "\n\n" (messages.filterMap transcriptBlock)
    let req : CompletionRequest :=
      { system := compressionPrompt,
        user := "Conversation to summarize:\n\n" ++ transcript,
        temperature := 3 / 10 }
    let summary := (llm req).getD ""
    (pyStrip summary, [req])

/-! ## Supporting lemmas -/

theorem alook_aset_self {α : Type} (m : List (String × α)) (k : String)
    (v : α) : alook (aset m k v) k = some v := by
  induction m with
  | nil => simp [aset, alook]
  | cons p t ih =>
    obtain ⟨k2, w⟩ := p
    by_cases h : k = k2
    · simp [aset, alook, h]
    · simp [aset, alook, h, ih]

theorem alook_aset_ne {α : Type} (m : List (String × α)) (k k2 : String)
    (v : α) (h : k2 ≠ k) : alook (aset m k v) k2 = alook m k2 := by
  induction m with
  | nil => simp [aset, alook, h]
  | cons p t ih =>
    obtain ⟨k3, w⟩ := p
    by_cases h3 : k = k3
    · subst h3
      simp [aset, alook, h]
    · simp only [aset, if_neg h3]
      by_cases h4 : k2 = k3
      · simp [alook, h4]
      · simp [alook, h4, ih]

theorem aset_aset_same {α : Type} (m : List (String × α)) (k : String)
    (v w : α) : aset (aset m k v) k w = aset m k w := by
  induction m with
  | nil => simp [aset]
  | cons p t ih =>
    obtain ⟨k2, u⟩ := p
    by_cases h : k = k2
    · simp [aset, h]
    · simp [aset, h, ih]

theorem editLoop_ok (edits : List Edit) :
    ∀ content filename, editsAllMatchOnce content edits = true →
      editLoop filename content edits = .ok (applyEditsAll content edits) := by
  induction edits with
  | nil => intro content filename _; simp [editLoop, applyEditsAll]
  | cons e rest ih =>
    intro content filename h
    simp only [editsAllMatchOnce, Bool.and_eq_true, decide_eq_true_eq] at h
    obtain ⟨h1, h2⟩ := h
    simp only [editLoop, pyContains, h1, applyEditsAll]
    norm_num
    exact ih _ _ h2

theorem editLoop_err (edits : List Edit) :
    ∀ content filename, editsAllMatchOnce content edits = false →
      ∃ msg, editLoop filename content edits = .error msg := by
  induction edits with
  | nil => intro content filename h; simp [editsAllMatchOnce] at h
  | cons e rest ih =>
    intro content filename h
    simp only [editsAllMatchOnce, Bool.and_eq_false_iff, decide_eq_false_iff_not] at h
    rcases Nat.lt_trichotomy (pyCount content e.search) 1 with hlt | heq | hgt
    · have h0 : pyCount content e.search = 0 := by omega
      refine ⟨"Could not find exact match in " ++ filename
        ++ " for search block\n\n" ++ e.search
        ++ "\n\nEnsure your SEARCH block is a literal copy of the file content. The file is left unmodified", ?_⟩
      simp [editLoop, pyContains, h0]
    · rcases h with h | h
      · exact absurd heq h
      · obtain ⟨msg, hmsg⟩ := ih (pyReplaceOnce content e.search e.replace) filename h
        refine ⟨msg, ?_⟩
        simp only [editLoop, pyContains, heq]
        norm_num
        exact hmsg
    · refine ⟨"Multiple occurrences of search block found in " ++ filename
        ++ ". Please include more surrounding context to make it unique.", ?_⟩
      have hne : pyCount content e.search ≠ 0 := by omega
      simp [editLoop, pyContains, hne, hgt]

theorem pySlice_eq_nil {α : Type} (l : List α) (i j : Int)
    (h : (l.length : Int) ≤ i) : pySlice l i j = [] := by
  have hi : ¬ i < 0 := by omega
  have hlen : l.length ≤ i.toNat := by omega
  unfold pySlice pyClampIdx
  rw [if_neg hi, Nat.min_eq_right hlen]
  apply List.drop_eq_nil_of_le
  simp [List.length_take]

theorem chatLoop_length (processFn : AsstMessage → String → ProcessOutput)
    (script : List (AsstMessage × String)) :
    ∀ messages res, chatLoop processFn messages script = some res →
      messages.length + 1 ≤ res.length := by
  induction script with
  | nil => intro messages res h; simp [chatLoop] at h
  | cons p rest ih =>
    intro messages res h
    obtain ⟨m, fr⟩ := p
    simp only [chatLoop] at h
    by_cases hr : (processFn m fr).reply = []
    · rw [if_pos hr] at h
      obtain rfl := Option.some.injEq _ _ ▸ h
      have := Option.some_injective _ h
      simp [← this]
    · rw [if_neg hr] at h
      have := ih _ _ h
      have hlen : 1 ≤ (processFn m fr).reply.length := by
        cases hrep : (processFn m fr).reply with
        | nil => exact absurd hrep hr
        | cons a t => simp
      simp only [List.length_append, List.length_cons, List.length_nil] at this ⊢
      omega

theorem filter_name_aset (m : List (String × ToolSchema)) (n : String)
    (v : ToolSchema) (hnd : (m.map Prod.fst).Nodup)
    (hwf : ∀ p ∈ m, p.2.name = p.1) (hv : v.name = n) :
    ((aset m n v).map Prod.snd).filter (fun sc => sc.name == n) = [v] := by
  induction m with
  | nil => simp [aset, List.filter, hv]
  | cons p t ih =>
    obtain ⟨k, w⟩ := p
    simp only [List.map_cons, List.nodup_cons] at hnd
    obtain ⟨hk, hndt⟩ := hnd
    have hw : w.name = k := hwf (k, w) (by simp)
    have hwft : ∀ q ∈ t, q.2.name = q.1 := fun q hq => hwf q (by simp [hq])
    by_cases h : n = k
    · subst h
      have hnil : (t.map Prod.snd).filter (fun sc => sc.name == n) = [] := by
        rw [List.filter_eq_nil_iff]
        intro sc hsc
        obtain ⟨q, hq, hqsc⟩ := List.mem_map.mp hsc
        have hname := hwft q hq
        have hqk : q.1 ∈ t.map Prod.fst := List.mem_map.mpr ⟨q, hq, rfl⟩
        simp only [beq_iff_eq]
        intro hcon
        apply hk
        have hq1 : q.1 = n := by rw [← hname, hqsc, hcon]
        rw [← hq1]
        exact hqk
      simp [aset, List.filter_cons, hv, hnil]
    · have hwn : (w.name == n) = false := by
        simp only [beq_eq_false_iff_ne, ne_eq, hw]
        exact fun hc => h hc.symm
      simp only [aset, if_neg h, List.map_cons, List.filter_cons, hwn]
      simp only [Bool.false_eq_true, if_false]
      exact ih hndt hwft

/-! ## Claims -/

/-- C1: the claim says constructing an Orchestrator and registering its
instance-scoped tools leaves the original `ToolRegistry`'s maps unchanged.
The code never calls `clone()`: `Orchestrator.__init__` binds the
registry's own dict objects (and on the real `ToolRegistry` the attribute
names do not even resolve — see `registerInstanceTool`), so registering
`add_reaction` / `send_image` mutates the original registry: a name that
`get_schema` resolved to `None` before construction resolves to a schema
afterwards.  Evaluated here at a concrete registry. -/
theorem C1_instance_tools_mutate_registry :
    ToolRegistry.getSchema ⟨60, [], []⟩ "add_reaction" = none ∧
    ToolRegistry.getSchema ⟨60, [], []⟩ "send_image" = none ∧
    ToolRegistry.getSchema
        (humanInputRegisterTools (fun _ => ⟨0, .ok []⟩) (fun _ => ⟨0, .ok []⟩)
          ⟨60, [], []⟩) "add_reaction" ≠ none ∧
    ToolRegistry.getSchema
        (humanInputRegisterTools (fun _ => ⟨0, .ok []⟩) (fun _ => ⟨0, .ok []⟩)
          ⟨60, [], []⟩) "send_image" ≠ none := by
  decide

/-- C2 (counterexample): `HostRuntime.execute` on a command that exits with
return code 1 reports `status = "success"`, not `"error"` as the claim
requires of every Runtime. -/
theorem C2_host_nonzero_success :
    alook (hostExecute "" "boom" 1) "status" = some (.str "success") ∧
    alook (hostExecute "" "boom" 1) "returncode" = some (.int 1) := by
  decide

/-- C2 (amended): on non-zero exit, `ContainerRuntime.execute` and
`ContainerCommandExecutor.execute` return `status = "error"` and still
carry the captured stdout and stderr (shape
`{status, returncode, stdout, stderr}`, with `ContainerRuntime` truncating
the outputs); `HostRuntime.execute` instead always returns
`status = "success"` with shape `{status, stdout, stderr, returncode}`, so
its non-zero exits are signalled only through `returncode`. -/
theorem C2_nonzero_exit_amended (stdout stderr : String) (returncode : Int)
    (h : returncode ≠ 0) :
    alook (containerExecute stdout stderr returncode) "status"
        = some (.str "error") ∧
    alook (containerExecute stdout stderr returncode) "returncode"
        = some (.int returncode) ∧
    alook (containerExecute stdout stderr returncode) "stdout"
        = some (.str (truncOut stdout "\n\n(truncated: output is too long)")) ∧
    alook (containerExecute stdout stderr returncode) "stderr"
        = some (.str (truncOut stderr "\n\n(truncated: error is too long)")) ∧
    alook (containerCmdExecute stdout stderr returncode) "status"
        = some (.str "error") ∧
    alook (containerCmdExecute stdout stderr returncode) "returncode"
        = some (.int returncode) ∧
    alook (containerCmdExecute stdout stderr returncode) "stdout"
        = some (.str stdout) ∧
    alook (containerCmdExecute stdout stderr returncode) "stderr"
        = some (.str stderr) ∧
    alook (hostExecute stdout stderr returncode) "status"
        = some (.str "success") ∧
    alook (hostExecute stdout stderr returncode) "stdout"
        = some (.str stdout) ∧
    alook (hostExecute stdout stderr returncode) "stderr"
        = some (.str stderr) ∧
    alook (hostExecute stdout stderr returncode) "returncode"
        = some (.int returncode) := by
  have hb : (returncode != 0) = true := by simpa using h
  simp [containerExecute, containerCmdExecute, hostExecute, alook, hb]

/-- C2 witness at a concrete non-zero exit. -/
theorem C2_nonzero_exit_witness :
    alook (containerExecute "out" "err" 1) "status" = some (.str "error") ∧
    alook (hostExecute "out" "err" 1) "status" = some (.str "success") :=
  ⟨(C2_nonzero_exit_amended "out" "err" 1 (by decide)).1,
   (C2_nonzero_exit_amended "out" "err" 1 (by decide)).2.2.2.2.2.2.2.2.1⟩

/-- C5: invoked through `process` (which strips the assistant content), the
heartbeat final-response hook calls `messaging.notify` with the stripped
content iff that stripped content is non-empty and does not end with the
literal 9-character sentinel `NO_REPORT`; otherwise no notify call is
made. -/
theorem C5_heartbeat_notify_iff (handle : AsstToolCall → RMap)
    (dumps : RMap → String) (content : Option String) :
    "NO_REPORT".length = 9 ∧
    (heartbeatNotifyOf handle dumps ⟨content, []⟩ "stop"
        = some (pyStrip (content.getD ""))
      ↔ pyStrip (content.getD "") ≠ ""
          ∧ pyEndsWith (pyStrip (content.getD "")) "NO_REPORT" = false) ∧
    (heartbeatNotifyOf handle dumps ⟨content, []⟩ "stop" = none
      ↔ ¬(pyStrip (content.getD "") ≠ ""
          ∧ pyEndsWith (pyStrip (content.getD "")) "NO_REPORT" = false)) := by
  have hred : heartbeatNotifyOf handle dumps ⟨content, []⟩ "stop"
      = heartbeatOnFinalResponse (pyStrip (content.getD "")) := by
    simp [heartbeatNotifyOf, process]
  refine ⟨by decide, ?_, ?_⟩ <;> rw [hred] <;>
    unfold heartbeatOnFinalResponse <;>
    by_cases h1 : pyStrip (content.getD "") = "" <;>
    by_cases h2 : pyEndsWith (pyStrip (content.getD "")) "NO_REPORT" <;>
    simp [h1, h2]

/-- C6: registering a tool stores the wrapped handler under the function's
name, and the wrapper is total: a run longer than the registry's timeout
yields the timeout error dict, a raising tool yields
`{status: error, message: str(e)}`, and otherwise the tool's own result is
passed through unchanged. -/
theorem C6_wrapped_handler (r : ToolRegistry) (func : PyFunc) (schema : RVal)
    (args : Args) :
    (r.register func schema none none).getHandler func.name
        = some (wrapTool r.toolTimeout func.name func.fn) ∧
    ((func.fn args).dur > r.toolTimeout →
      wrapTool r.toolTimeout func.name func.fn args
        = [("status", .str "error"),
           ("message", .str ("Tool " ++ func.name ++ " timed out after "
              ++ toString r.toolTimeout ++ "s"))]) ∧
    (∀ e, (func.fn args).dur ≤ r.toolTimeout → (func.fn args).out = .error e →
      wrapTool r.toolTimeout func.name func.fn args
        = [("status", .str "error"), ("message", .str e)]) ∧
    (∀ res, (func.fn args).dur ≤ r.toolTimeout → (func.fn args).out = .ok res →
      wrapTool r.toolTimeout func.name func.fn args = res) := by
  refine ⟨?_, ?_, ?_, ?_⟩
  · simp [ToolRegistry.register, ToolRegistry.getHandler, alook_aset_self]
  · intro h
    simp [wrapTool, h]
  · intro e hle hout
    have hn : ¬ (func.fn args).dur > r.toolTimeout := by omega
    simp [wrapTool, hn, hout]
  · intro res hle hout
    have hn : ¬ (func.fn args).dur > r.toolTimeout := by omega
    simp [wrapTool, hn, hout]

/-- C6 witness: a tool that would run 100 seconds against a 60-second
registry returns the literal timeout error dict through its stored
handler. -/
theorem C6_wrapped_handler_witness :
    (ToolRegistry.register ⟨60, [], []⟩
        ⟨"slow_tool", none, fun _ => ⟨100, .ok [("status", .str "success")]⟩⟩
        (.str "schema") none none).getHandler "slow_tool"
      = some (wrapTool 60 "slow_tool"
          (fun _ => ⟨100, .ok [("status", .str "success")]⟩)) ∧
    wrapTool 60 "slow_tool" (fun _ => ⟨100, .ok [("status", .str "success")]⟩)
        []
      = [("status", .str "error"),
         ("message", .str ("Tool " ++ "slow_tool" ++ " timed out after "
            ++ toString (60 : Nat) ++ "s"))] :=
  ⟨(C6_wrapped_handler ⟨60, [], []⟩
      ⟨"slow_tool", none, fun _ => ⟨100, .ok [("status", .str "success")]⟩⟩
      (.str "schema") []).1,
   (C6_wrapped_handler ⟨60, [], []⟩
      ⟨"slow_tool", none, fun _ => ⟨100, .ok [("status", .str "success")]⟩⟩
      (.str "schema") []).2.1 (by decide)⟩

/-- C7: `compress` of the empty message list is `""` with no LLM request
issued; for a non-empty list exactly one request is issued, at temperature
0.3 ≤ 0.5, with the fixed summariser system prompt and the
blank-line-joined transcript of the `"[<ROLE>]\n<content>"` blocks of the
messages with truthy content, and the returned summary is the response
content stripped. -/
theorem C7_compress (llm : CompletionRequest → Option String)
    (messages : List CMsg) :
    agentCompress llm [] = ("", []) ∧
    (messages ≠ [] →
      (agentCompress llm messages).2.length = 1 ∧
      ∀ req ∈ (agentCompress llm messages).2,
        req.temperature ≤ 1 / 2 ∧
        req.system = compressionPrompt ∧
        req.user = "Conversation to summarize:\n\n"
          ++ String.intercalate "\n\n" (messages.filterMap transcriptBlock) ∧
        (agentCompress llm messages).1 = pyStrip ((llm req).getD "")) := by
  constructor
  · simp [agentCompress]
  · intro h
    refine ⟨by simp [agentCompress, h], ?_⟩
    intro req hreq
    simp only [agentCompress, h, ite_false, if_neg, List.mem_singleton] at hreq
    subst hreq
    refine ⟨by norm_num, rfl, rfl, by simp [agentCompress, h]⟩

/-- C7 witness at a one-message list. -/
theorem C7_compress_witness :
    (agentCompress (fun _ => some "  summary  ")
        [⟨some "user", some "hi"⟩]).2.length = 1 :=
  ((C7_compress (fun _ => some "  summary  ")
      [⟨some "user", some "hi"⟩]).2 (by decide)).1

/-- C8 (counterexample): a 5001-character stdout returned by a command run
through `HostRuntime.execute` (a Runtime's execute operation) comes back
unmodified — longer than the 5000-byte bound the claim asserts for every
Runtime, with no truncation marker. -/
theorem C8_host_no_truncation :
    alook (hostExecute (String.mk (List.replicate 5001 'a')) "" 0) "stdout"
        = some (.str (String.mk (List.replicate 5001 'a'))) ∧
    5000 < (String.mk (List.replicate 5001 'a')).length := by
  refine ⟨rfl, ?_⟩
  simp only [String.length_mk, List.length_replicate]
  omega

/-- Generic bound for `ContainerRuntime.execute`'s truncation: the kept
prefix is at most 5000 characters, plus the marker. -/
theorem truncOut_length_le (s marker : String) :
    (truncOut s marker).length ≤ 5000 + marker.length := by
  unfold truncOut
  by_cases hl : s.length > 5000
  · rw [if_pos hl]
    have htake : (s.take 5000).length ≤ 5000 := by
      simp only [String.take_eq, String.length_mk, List.length_take]
      omega
    have happ : (s.take 5000 ++ marker).length
        = (s.take 5000).length + marker.length :=
      String.length_append _ _
    omega
  · rw [if_neg hl]
    omega

/-- C8 (amended): only `ContainerRuntime.execute` truncates, and it cuts
stdout and stderr each to at most 5000 characters of the original output
(CPython `len`, i.e. code points, not bytes) with the respective
truncation marker appended, leaving output of at most 5000 characters
unmodified; `HostRuntime.execute` and `ContainerCommandExecutor.execute`
return stdout and stderr unmodified at every length. -/
theorem C8_truncation_amended (stdout stderr : String) (returncode : Int) :
    (stdout.length ≤ 5000 →
      alook (containerExecute stdout stderr returncode) "stdout"
        = some (.str stdout)) ∧
    (5000 < stdout.length →
      alook (containerExecute stdout stderr returncode) "stdout"
        = some (.str (stdout.take 5000
            ++ "\n\n(truncated: output is too long)"))) ∧
    (stderr.length ≤ 5000 →
      alook (containerExecute stdout stderr returncode) "stderr"
        = some (.str stderr)) ∧
    (5000 < stderr.length →
      alook (containerExecute stdout stderr returncode) "stderr"
        = some (.str (stderr.take 5000
            ++ "\n\n(truncated: error is too long)"))) ∧
    alook (hostExecute stdout stderr returncode) "stdout"
        = some (.str stdout) ∧
    alook (hostExecute stdout stderr returncode) "stderr"
        = some (.str stderr) ∧
    alook (containerCmdExecute stdout stderr returncode) "stdout"
        = some (.str stdout) ∧
    alook (containerCmdExecute stdout stderr returncode) "stderr"
        = some (.str stderr) ∧
    (truncOut stdout "\n\n(truncated: output is too long)").length
        ≤ 5000 + "\n\n(truncated: output is too long)".length ∧
    (truncOut stderr "\n\n(truncated: error is too long)").length
        ≤ 5000 + "\n\n(truncated: error is too long)".length := by
  refine ⟨?_, ?_, ?_, ?_, ?_, ?_, ?_, ?_, ?_, ?_⟩
  · intro hle
    have hng : ¬ stdout.length > 5000 := by omega
    by_cases hrc : (returncode != 0) = true
    · simp [containerExecute, truncOut, hng, hrc, alook]
    · simp only [Bool.not_eq_true] at hrc
      simp [containerExecute, truncOut, hng, hrc, alook]
  · intro hgt
    by_cases hrc : (returncode != 0) = true
    · simp [containerExecute, truncOut, hgt, hrc, alook]
    · simp only [Bool.not_eq_true] at hrc
      simp [containerExecute, truncOut, hgt, hrc, alook]
  · intro hle
    have hng : ¬ stderr.length > 5000 := by omega
    by_cases hrc : (returncode != 0) = true
    · simp [containerExecute, truncOut, hng, hrc, alook]
    · simp only [Bool.not_eq_true] at hrc
      simp [containerExecute, truncOut, hng, hrc, alook]
  · intro hgt
    by_cases hrc : (returncode != 0) = true
    · simp [containerExecute, truncOut, hgt, hrc, alook]
    · simp only [Bool.not_eq_true] at hrc
      simp [containerExecute, truncOut, hgt, hrc, alook]
  · simp [hostExecute, alook]
  · simp [hostExecute, alook]
  · by_cases hrc : (returncode != 0) = true
    · simp [containerCmdExecute, hrc, alook]
    · simp only [Bool.not_eq_true] at hrc
      simp [containerCmdExecute, hrc, alook]
  · by_cases hrc : (returncode != 0) = true
    · simp [containerCmdExecute, hrc, alook]
    · simp only [Bool.not_eq_true] at hrc
      simp [containerCmdExecute, hrc, alook]
  · exact truncOut_length_le _ _
  · exact truncOut_length_le _ _

/-- C8 witness: a short stdout is unmodified, a long stdout and a long
stderr are each cut to 5000 characters plus their marker, and a long
stderr passes through `HostRuntime.execute` unmodified. -/
theorem C8_truncation_witness :
    alook (containerExecute "ok" "" 0) "stdout" = some (.str "ok") ∧
    alook (containerExecute (String.mk (List.replicate 5001 'b')) "" 0)
        "stdout"
      = some (.str ((String.mk (List.replicate 5001 'b')).take 5000
          ++ "\n\n(truncated: output is too long)")) ∧
    alook (containerExecute "" (String.mk (List.replicate 5001 'c')) 0)
        "stderr"
      = some (.str ((String.mk (List.replicate 5001 'c')).take 5000
          ++ "\n\n(truncated: error is too long)")) ∧
    alook (hostExecute "" (String.mk (List.replicate 5001 'c')) 1) "stderr"
      = some (.str (String.mk (List.replicate 5001 'c'))) :=
  ⟨(C8_truncation_amended "ok" "" 0).1 (by decide),
   (C8_truncation_amended (String.mk (List.replicate 5001 'b')) "" 0).2.1
     (by simp only [String.length_mk, List.length_replicate]; omega),
   (C8_truncation_amended "" (String.mk (List.replicate 5001 'c')) 0).2.2.2.1
     (by simp only [String.length_mk, List.length_replicate]; omega),
   (C8_truncation_amended "" (String.mk (List.replicate 5001 'c'))
       1).2.2.2.2.2.1⟩

/-- C9: registering under an already-registered name silently replaces the
earlier entry — afterwards `get_schema` / `get_handler` reflect only the
second registration and `tool_schemas()` carries exactly one entry for the
name — while names never registered yield `None` from both accessors
(for a registry whose map keys are distinct and name their entries, as
every registry built by `register` is). -/
theorem C9_register_replaces (r : ToolRegistry) (f1 f2 : PyFunc)
    (s1 s2 : RVal) (n : String) (hn : n ≠ "")
    (hnd : (r.schemas.map Prod.fst).Nodup)
    (hwf : ∀ p ∈ r.schemas, p.2.name = p.1) :
    ((r.register f1 s1 (some n) none).register f2 s2 (some n) none).getSchema
        n = some ⟨n, some (pyStrip (f2.doc.getD "")), s2⟩ ∧
    ((r.register f1 s1 (some n) none).register f2 s2 (some n) none).getHandler
        n = some (wrapTool r.toolTimeout n f2.fn) ∧
    ((((r.register f1 s1 (some n) none).register f2 s2
        (some n) none).toolSchemas).filter (fun sc => sc.name == n)).length
        = 1 ∧
    (∀ m, m ≠ n → alook r.schemas m = none → alook r.handlers m = none →
      ((r.register f1 s1 (some n) none).register f2 s2 (some n) none).getSchema
          m = none ∧
      ((r.register f1 s1 (some n) none).register f2 s2
          (some n) none).getHandler m = none) := by
  refine ⟨?_, ?_, ?_, ?_⟩
  · simp [ToolRegistry.register, ToolRegistry.getSchema, hn, aset_aset_same,
      alook_aset_self]
  · simp [ToolRegistry.register, ToolRegistry.getHandler, hn, aset_aset_same,
      alook_aset_self]
  · simp only [ToolRegistry.register, ToolRegistry.toolSchemas, hn, ite_false,
      if_neg, aset_aset_same]
    rw [filter_name_aset r.schemas n _ hnd hwf rfl]
    rfl
  · intro m hm h1 h2
    constructor
    · simp only [ToolRegistry.register, ToolRegistry.getSchema, hn, ite_false,
        if_neg]
      rw [aset_aset_same, alook_aset_ne _ _ _ _ hm]
      exact h1
    · simp only [ToolRegistry.register, ToolRegistry.getHandler, hn, ite_false,
        if_neg]
      rw [aset_aset_same, alook_aset_ne _ _ _ _ hm]
      exact h2

/-- C9 witness: two registrations under the name `"dup"` on an empty
registry leave only the second schema, one `tool_schemas` entry, and `None`
for an unknown name. -/
theorem C9_register_replaces_witness :
    ((ToolRegistry.register ⟨60, [], []⟩
          ⟨"f1", some "first", fun _ => ⟨0, .ok []⟩⟩ (.str "s1")
          (some "dup") none).register
        ⟨"f2", some "second", fun _ => ⟨0, .ok []⟩⟩ (.str "s2")
        (some "dup") none).getSchema "dup"
      = some ⟨"dup", some (pyStrip ((some "second").getD "")), .str "s2"⟩ ∧
    ((((ToolRegistry.register ⟨60, [], []⟩
          ⟨"f1", some "first", fun _ => ⟨0, .ok []⟩⟩ (.str "s1")
          (some "dup") none).register
        ⟨"f2", some "second", fun _ => ⟨0, .ok []⟩⟩ (.str "s2")
        (some "dup") none).toolSchemas).filter
          (fun sc => sc.name == "dup")).length = 1 ∧
    ((ToolRegistry.register ⟨60, [], []⟩
          ⟨"f1", some "first", fun _ => ⟨0, .ok []⟩⟩ (.str "s1")
          (some "dup") none).register
        ⟨"f2", some "second", fun _ => ⟨0, .ok []⟩⟩ (.str "s2")
        (some "dup") none).getSchema "never_registered" = none := by
  have h := C9_register_replaces ⟨60, [], []⟩
    ⟨"f1", some "first", fun _ => ⟨0, .ok []⟩⟩
    ⟨"f2", some "second", fun _ => ⟨0, .ok []⟩⟩
    (.str "s1") (.str "s2") "dup" (by decide) (by simp) (by simp)
  exact ⟨h.1, h.2.2.1,
    (h.2.2.2 "never_registered" (by decide) (by simp [alook])
      (by simp [alook])).1⟩

/-- C10: `HostRuntime.read_file` on an existing file with a `start_line`
strictly past the last line returns `status = "success"` with empty
`content`, `returned_lines = 0`, and the true `total_lines`; and any
`start_line < 1` is clamped so the returned `start_line` field is 1. -/
theorem C10_read_past_eof (fs : FS) (filename : String)
    (fileContent : String) (startLine limit : Int)
    (hfile : alook fs filename = some fileContent) :
    (((pyReadLines [] fileContent.data).length : Int) < startLine →
      alook (hostReadFile fs filename startLine limit) "status"
          = some (.str "success") ∧
      alook (hostReadFile fs filename startLine limit) "content"
          = some (.str "") ∧
      alook (hostReadFile fs filename startLine limit) "returned_lines"
          = some (.int 0) ∧
      alook (hostReadFile fs filename startLine limit) "total_lines"
          = some (.int (pyReadLines [] fileContent.data).length)) ∧
    (startLine < 1 →
      alook (hostReadFile fs filename startLine limit) "start_line"
          = some (.int 1)) := by
  constructor
  · intro h
    have h0 : (0 : Int) ≤ ((pyReadLines [] fileContent.data).length : Int) :=
      Int.natCast_nonneg _
    have hmax : max 1 startLine = startLine := by omega
    have hslice : pySlice (pyReadLines [] fileContent.data)
        (max 1 startLine - 1) (max 1 startLine + limit - 1) = [] := by
      apply pySlice_eq_nil
      omega
    simp [hostReadFile, hfile, hslice, alook, pySplitLines]
  · intro h
    have hmax : max 1 startLine = 1 := by omega
    simp [hostReadFile, hfile, hmax, alook]

/-- C10 witness: reading `"a\nb\n"` (2 lines) from line 5 succeeds with
empty content and 0 returned lines, and a `start_line` of `-3` is clamped
to 1. -/
theorem C10_read_past_eof_witness :
    alook (hostReadFile [("f.txt", "a\nb\n")] "f.txt" 5 200) "status"
        = some (.str "success") ∧
    alook (hostReadFile [("f.txt", "a\nb\n")] "f.txt" 5 200) "content"
        = some (.str "") ∧
    alook (hostReadFile [("f.txt", "a\nb\n")] "f.txt" 5 200) "returned_lines"
        = some (.int 0) ∧
    alook (hostReadFile [("f.txt", "a\nb\n")] "f.txt" 5 200) "total_lines"
        = some (.int 2) ∧
    alook (hostReadFile [("f.txt", "a\nb\n")] "f.txt" (-3) 200) "start_line"
        = some (.int 1) := by
  have h1 := (C10_read_past_eof [("f.txt", "a\nb\n")] "f.txt" "a\nb\n" 5 200
      (by decide)).1 (by decide)
  have h2 := (C10_read_past_eof [("f.txt", "a\nb\n")] "f.txt" "a\nb\n" (-3)
      200 (by decide)).2 (by decide)
  refine ⟨h1.1, h1.2.1, h1.2.2.1, ?_, h2⟩
  have := h1.2.2.2
  rw [this]
  rfl

/-- C3: `edit_file` is all-or-nothing.  Whenever some edit's search block
occurs zero times or more than once in the successively edited content,
both `HostRuntime.edit_file` and `ContainerRuntime.edit_file` return a
`status = "error"` result and leave the filesystem unchanged; only when
every edit matches exactly once is the new content written, by the single
`write_file` call at the end. -/
theorem C3_edit_file_all_or_nothing (fs : FS) (filename : String)
    (edits : List Edit) (content : String)
    (hfile : alook fs filename = some content) :
    (editsAllMatchOnce content edits = false →
      alook (hostEditFile fs filename edits).1 "status"
          = some (.str "error") ∧
      (hostEditFile fs filename edits).2 = fs ∧
      ∃ res, containerEditFile fs filename edits = some (res, fs) ∧
        alook res "status" = some (.str "error")) ∧
    (editsAllMatchOnce content edits = true →
      alook (hostEditFile fs filename edits).1 "status"
          = some (.str "success") ∧
      (hostEditFile fs filename edits).2
          = aset fs filename (applyEditsAll content edits) ∧
      containerEditFile fs filename edits
          = some (containerWriteFile fs filename
              (applyEditsAll content edits))) := by
  constructor
  · intro h
    obtain ⟨msg, hmsg⟩ := editLoop_err edits content filename h
    refine ⟨?_, ?_, ⟨[("status", .str "error"), ("message", .str msg)], ?_, ?_⟩⟩
    · simp [hostEditFile, hfile, hmsg, alook]
    · simp [hostEditFile, hfile, hmsg]
    · simp [containerEditFile, hfile, hmsg]
    · simp [alook]
  · intro h
    have hok := editLoop_ok edits content filename h
    refine ⟨?_, ?_, ?_⟩
    · simp [hostEditFile, hfile, hok, hostWriteFile, alook]
    · simp [hostEditFile, hfile, hok, hostWriteFile]
    · simp [containerEditFile, hfile, hok]

/-- C3 witness: scenario S6 — one edit whose search block `"foo"` occurs
twice in `"foo foo"` yields an error and an unchanged filesystem; and a
uniquely matching edit is applied and written. -/
theorem C3_edit_file_witness :
    alook (hostEditFile [("/w/f.txt", "foo foo")] "/w/f.txt"
        [⟨"foo", "bar"⟩]).1 "status" = some (.str "error") ∧
    (hostEditFile [("/w/f.txt", "foo foo")] "/w/f.txt"
        [⟨"foo", "bar"⟩]).2 = [("/w/f.txt", "foo foo")] ∧
    (hostEditFile [("/w/g.txt", "hello world")] "/w/g.txt"
        [⟨"world", "there"⟩]).2
      = aset [("/w/g.txt", "hello world")] "/w/g.txt"
          (applyEditsAll "hello world" [⟨"world", "there"⟩]) := by
  have h1 := (C3_edit_file_all_or_nothing [("/w/f.txt", "foo foo")] "/w/f.txt"
      [⟨"foo", "bar"⟩] "foo foo" (by decide)).1 (by decide)
  have h2 := (C3_edit_file_all_or_nothing [("/w/g.txt", "hello world")]
      "/w/g.txt" [⟨"world", "there"⟩] "hello world" (by decide)).2 (by decide)
  exact ⟨h1.1, h1.2.1, h2.2.1⟩

/-- C4: `Orchestrator.process` is the three-case state machine — tool calls
produce one tool-role message per call (with `_before_tool_use` invoked);
no tool calls with a non-`"stop"` finish reason produce the single
`continue` user message; no tool calls with `finish_reason = "stop"`
invoke `_on_final_response` on the stripped content and return the empty
list — and the `Agent._chat` loop terminates at a step exactly when
`process` returns the empty list there. -/
theorem C4_process_state_machine (handle : AsstToolCall → RMap)
    (dumps : RMap → String) (message : AsstMessage) (finishReason : String) :
    (message.toolCalls ≠ [] →
      (process handle dumps message finishReason).reply
          = message.toolCalls.map (fun tc =>
              { role := "tool", content := dumps (handle tc),
                toolCallId := some tc.id }) ∧
      (process handle dumps message finishReason).calledBeforeToolUse
          = true) ∧
    (message.toolCalls = [] → finishReason ≠ "stop" →
      (process handle dumps message finishReason).reply
          = [{ role := "user", content := "continue", toolCallId := none }] ∧
      (process handle dumps message finishReason).finalResponse = none) ∧
    (message.toolCalls = [] → finishReason = "stop" →
      (process handle dumps message finishReason).reply = [] ∧
      (process handle dumps message finishReason).finalResponse
          = some (pyStrip ((message.content).getD ""))) ∧
    (∀ messages rest,
      chatLoop (process handle dumps) messages
          ((message, finishReason) :: rest)
          = some (messages ++ [asstToChatMsg message])
        ↔ (process handle dumps message finishReason).reply = []) := by
  refine ⟨?_, ?_, ?_, ?_⟩
  · intro h
    simp [process, h]
  · intro h hf
    simp [process, h, hf]
  · intro h hf
    simp [process, h, hf]
  · intro messages rest
    constructor
    · intro hloop
      by_contra hne
      simp only [chatLoop, if_neg hne] at hloop
      have hlen := chatLoop_length (process handle dumps) rest _ _ hloop
      have hrl : 1 ≤ (process handle dumps message finishReason).reply.length := by
        cases hrep : (process handle dumps message finishReason).reply with
        | nil => exact absurd hrep hne
        | cons a t => simp
      simp only [List.length_append, List.length_cons, List.length_nil]
        at hlen
      omega
    · intro hrep
      simp [chatLoop, hrep]

/-- C4 witness: a `"stop"` response with no tool calls returns the empty
reply, the loop terminates on it, and a tool-call response returns one tool
message per call. -/
theorem C4_process_witness :
    (process (fun _ => [("status", .str "success")]) (fun _ => "json")
        ⟨some " done ", []⟩ "stop").reply = [] ∧
    (chatLoop (process (fun _ => [("status", .str "success")])
        (fun _ => "json")) []
        [(⟨some " done ", []⟩, "stop")]
      = some [asstToChatMsg ⟨some " done ", []⟩]) ∧
    (process (fun _ => [("status", .str "success")]) (fun _ => "json")
        ⟨none, [⟨"id1", "run_command", "args"⟩]⟩ "tool_calls").reply
      = [{ role := "tool", content := "json", toolCallId := some "id1" }] := by
  have hstop := (C4_process_state_machine
      (fun _ => [("status", .str "success")]) (fun _ => "json")
      ⟨some " done ", []⟩ "stop").2.2.1 rfl rfl
  have hloop := ((C4_process_state_machine
      (fun _ => [("status", .str "success")]) (fun _ => "json")
      ⟨some " done ", []⟩ "stop").2.2.2 [] []).mpr hstop.1
  have htc := (C4_process_state_machine
      (fun _ => [("status", .str "success")]) (fun _ => "json")
      ⟨none, [⟨"id1", "run_command", "args"⟩]⟩ "tool_calls").1 (by decide)
  refine ⟨hstop.1, ?_, ?_⟩
  · simpa using hloop
  · rw [htc.1]
    rfl
